import Mathlib

/-
Shallow embedding of the Transporter backend's booking / pickup / rating /
tour-listing logic (src/bookings/bookings.py, src/pickup/pickup.py,
src/drivers/drivers.py, src/tours/tours.py).

Modelling conventions:
  * Mongo collections become association lists `List (Nat × doc)`; document
    ids are `Nat`.  `find_one {_id: i}` becomes `findOne l i` (first match),
    `update_one {_id: i}` becomes `updateOne l i f` (updates the first
    match, no-op when absent), `find_one_and_update(filter, set)` becomes
    `findOneAndUpdate l q f` (atomically updates the first document
    matching the filter and returns the post-update document, or none).
  * `insert_one` appends to the list, using a running `next_id` counter as
    the generated ObjectId; in Mongo generated ids are globally fresh.
  * Python ints are `Int` (Pydantic `int` has no range constraints here);
    Python floats are modelled as exact rationals `ℚ`.  Python's `round`
    is round-half-to-even, modelled by `roundHalfEven`.
  * A FastAPI handler that raises `HTTPException` performs no further
    writes; in every handler modelled here all raises precede all writes,
    so handlers become `Except Err ...` where an error means the state is
    unchanged.
-/

namespace Transporter

/-- HTTPException: a status code plus a detail message. -/
structure Err where
  status : Nat
  detail : String
deriving DecidableEq

/-- Tour document, as created by `create_tour` in src/tours/tours.py
(fields not read by any modelled operation are omitted). -/
structure Tour where
  driver_id : Nat
  from_location : String
  to_location : String
  departure_time : Int
  max_capacity : Int
  current_capacity : Int
  price_per_person : ℚ
  status : String
  created_at : Int
deriving DecidableEq

/-- Booking document, as inserted by `create_booking` in
src/bookings/bookings.py (username / driver_name / created_at, which no
modelled operation reads, are omitted). -/
structure Booking where
  tour_id : Nat
  user_id : Nat
  number_of_people : Int
  total_price : ℚ
  payment_type : String
  status : String
deriving DecidableEq

/-- Driver document, as inserted by `register_driver` in
src/drivers/drivers.py.  `tour_count` is the field read by the listing
sort in src/tours/tours.py (`driver_details.tour_count`); no code in the
repository ever writes it (`register_driver` initialises only rating,
total_trips and portfolio_completed), so it is an `Option` that every
repository-created driver has as `none` (a missing BSON field). -/
structure Driver where
  email : String
  full_name : String
  rating : ℚ
  total_trips : Int
  tour_count : Option Int
deriving DecidableEq

/-- Rating document, as inserted by `rate_driver` in src/drivers/drivers.py. -/
structure Rating where
  driver_id : Nat
  user_id : Nat
  booking_id : Nat
  rating : Int
deriving DecidableEq

/-- Pickup request document (src/pickup/pickup.py); only the fields the
driver-side transitions read are kept. -/
structure Pickup where
  user_id : Nat
  status : String
  driver_id : Option Nat
deriving DecidableEq

/-- The document store: one association list per collection, plus the
fresh-id counter standing in for ObjectId generation. -/
structure St where
  tours : List (Nat × Tour)
  bookings : List (Nat × Booking)
  drivers : List (Nat × Driver)
  ratings : List Rating
  pickups : List (Nat × Pickup)
  next_id : Nat
deriving DecidableEq

deriving instance DecidableEq for Except

/-- `find_one {_id: i}`: the first document whose id is `i`. -/
def findOne {α : Type} (l : List (Nat × α)) (i : Nat) : Option α :=
  match l with
  | [] => none
  | p :: t => if p.1 = i then some p.2 else findOne t i

/-- `find_one(filter)` for a general filter: first matching (id, doc) pair. -/
def findOneWith {α : Type} (l : List (Nat × α)) (q : Nat × α → Bool) :
    Option (Nat × α) :=
  match l with
  | [] => none
  | p :: t => if q p then some p else findOneWith t q

/-- `update_one {_id: i}`: update the first document whose id is `i`
(no-op when no document matches, as in Mongo). -/
def updateOne {α : Type} (l : List (Nat × α)) (i : Nat) (f : α → α) :
    List (Nat × α) :=
  match l with
  | [] => []
  | p :: t => if p.1 = i then (p.1, f p.2) :: t else p :: updateOne t i f

/-- `find_one_and_update(filter, {$set: ...}, return_document=True)`:
atomically update the first document matching the filter, returning the
post-update document together with the new collection. -/
def findOneAndUpdate {α : Type} (l : List (Nat × α)) (q : Nat × α → Bool)
    (f : α → α) : Option α × List (Nat × α) :=
  match l with
  | [] => (none, [])
  | p :: t =>
    if q p then (some (f p.2), (p.1, f p.2) :: t)
    else
      let r := findOneAndUpdate t q f
      (r.1, p :: r.2)

/-- Python's `round`: round half to even (banker's rounding), on exact
rationals.  With `q = num/den` (den > 0), `n` is the floor, `r` the
remainder, and `r/den` is compared against 1/2 by cross-multiplying. -/
def roundHalfEven (q : ℚ) : ℤ :=
  let b : ℤ := (q.den : ℤ)
  let n : ℤ := Int.fdiv q.num b
  let r : ℤ := q.num - n * b
  if 2 * r < b then n
  else if b < 2 * r then n + 1
  else if n % 2 = 0 then n else n + 1

/-- Request body of POST /api/tours/ (TourCreate in src/tours/tours.py;
return_time and description, which nothing modelled reads, are omitted). -/
structure TourCreate where
  from_location : String
  to_location : String
  departure_time : Int
  max_capacity : Int
  price_per_person : ℚ
deriving DecidableEq

/-- create_tour (src/tours/tours.py): inserts a tour owned by the calling
driver with `current_capacity = 0` and `status = "active"`.  Returns the
new state and the generated tour id. -/
def create_tour (st : St) (driver_id : Nat) (tc : TourCreate) (now : Int) :
    St × Nat :=
  let t : Tour :=
    { driver_id := driver_id
      from_location := tc.from_location
      to_location := tc.to_location
      departure_time := tc.departure_time
      max_capacity := tc.max_capacity
      current_capacity := 0
      price_per_person := tc.price_per_person
      status := "active"
      created_at := now }
  ({ st with tours := st.tours ++ [(st.next_id, t)], next_id := st.next_id + 1 },
   st.next_id)

/-- Request body of POST /api/drivers/register (only the fields the
modelled operations read). -/
structure DriverCreate where
  email : String
  full_name : String
deriving DecidableEq

/-- register_driver (src/drivers/drivers.py): fails when the email is
already registered, otherwise inserts a driver document with
`rating = 0.0`, `total_trips = 0` and no `tour_count` field. -/
def register_driver (st : St) (dc : DriverCreate) : Except Err (St × Nat) :=
  if st.drivers.any (fun p => p.2.email == dc.email) then
    .error { status := 400, detail := "Email already registered." }
  else
    .ok ({ st with
            drivers := st.drivers ++
              [(st.next_id,
                { email := dc.email, full_name := dc.full_name, rating := 0,
                  total_trips := 0, tour_count := none })]
            next_id := st.next_id + 1 },
         st.next_id)

/-- Request body of POST /api/bookings/ (BookingCreate in
src/bookings/bookings.py). -/
structure BookingCreate where
  tour_id : Nat
  number_of_people : Int
  total_price : ℚ
  payment_type : String
deriving DecidableEq

/-- create_booking (src/bookings/bookings.py): 404 when the tour is
absent; 400 when `current_capacity + number_of_people > max_capacity`;
otherwise inserts the booking (status "upcoming" when payment_type is
"cash", "paid" otherwise) and `$inc`s the tour's current_capacity by
number_of_people.  Returns the new state and the booking id. -/
def create_booking (st : St) (user_id : Nat) (b : BookingCreate) :
    Except Err (St × Nat) :=
  match findOne st.tours b.tour_id with
  | none => .error { status := 404, detail := "Tour not found" }
  | some tour =>
    if tour.current_capacity + b.number_of_people > tour.max_capacity then
      .error { status := 400, detail := "Not enough capacity on this tour." }
    else
      let doc : Booking :=
        { tour_id := b.tour_id
          user_id := user_id
          number_of_people := b.number_of_people
          total_price := b.total_price
          payment_type := b.payment_type
          status := if b.payment_type = "cash" then "upcoming" else "paid" }
      .ok ({ st with
              bookings := st.bookings ++ [(st.next_id, doc)]
              tours := updateOne st.tours b.tour_id
                (fun t => { t with
                  current_capacity := t.current_capacity + b.number_of_people })
              next_id := st.next_id + 1 },
           st.next_id)

/-- cancel_booking (src/bookings/bookings.py): looks the booking up by id
AND owner (so a foreign or absent booking gives the same 404); a
"completed" booking gives a dedicated message; any other status outside
{"paid","upcoming"} gives the generic message; otherwise sets the status
to "cancelled" and `$inc`s the owning tour's current_capacity by
`-number_of_people`. -/
def cancel_booking (st : St) (user_id booking_id : Nat) : Except Err St :=
  match (findOneWith st.bookings
      (fun p => p.1 == booking_id && p.2.user_id == user_id)).map Prod.snd with
  | none => .error { status := 404, detail := "Booking not found or access denied." }
  | some booking =>
    if booking.status = "completed" then
      .error { status := 400,
               detail := "This ride has already been completed and cannot be cancelled." }
    else if ¬ (booking.status = "paid" ∨ booking.status = "upcoming") then
      .error { status := 400,
               detail := "Cannot cancel a booking with status \x27" ++
                 booking.status ++ "\x27." }
    else
      .ok { st with
        bookings := updateOne st.bookings booking_id
          (fun b => { b with status := "cancelled" })
        tours := updateOne st.tours booking.tour_id
          (fun t => { t with
            current_capacity := t.current_capacity - booking.number_of_people }) }

/-- complete_booking (src/bookings/bookings.py): 404 when the booking is
absent; 403 when the booking's tour is absent or not owned by the calling
driver; 400 when the status is outside {"paid","upcoming"}; otherwise
sets only the booking's status to "completed" (no capacity change). -/
def complete_booking (st : St) (driver_id booking_id : Nat) : Except Err St :=
  match findOne st.bookings booking_id with
  | none => .error { status := 404, detail := "Booking not found" }
  | some booking =>
    match findOne st.tours booking.tour_id with
    | none =>
      .error { status := 403,
               detail := "Access forbidden: You are not the driver for this tour." }
    | some tour =>
      if tour.driver_id ≠ driver_id then
        .error { status := 403,
                 detail := "Access forbidden: You are not the driver for this tour." }
      else if ¬ (booking.status = "paid" ∨ booking.status = "upcoming") then
        .error { status := 400,
                 detail := "Cannot complete a booking with status \x27" ++
                   booking.status ++ "\x27." }
      else
        .ok { st with
          bookings := updateOne st.bookings booking_id
            (fun b => { b with status := "completed" }) }

/-- accept_pickup_request (src/pickup/pickup.py): a single
find_one_and_update conditioned on `status == "pending"`; on success sets
status "accepted" and assigns the calling driver; otherwise 404
"Request not found or already handled." and no change. -/
def accept_pickup_request (st : St) (driver_id request_id : Nat) :
    Except Err (St × Pickup) :=
  let r := findOneAndUpdate st.pickups
    (fun p => p.1 == request_id && p.2.status == "pending")
    (fun p => { p with status := "accepted", driver_id := some driver_id })
  match r.1 with
  | none => .error { status := 404, detail := "Request not found or already handled." }
  | some doc => .ok ({ st with pickups := r.2 }, doc)

/-- cancel_pickup_request (driver side, src/pickup/pickup.py): a single
find_one_and_update conditioned on `status == "pending"` or
(`status == "accepted"` and the caller is the assigned driver); on
success resets status to "pending" and clears driver_id. -/
def cancel_pickup_request (st : St) (driver_id request_id : Nat) :
    Except Err (St × Pickup) :=
  let r := findOneAndUpdate st.pickups
    (fun p => p.1 == request_id &&
      (p.2.status == "pending" ||
       (p.2.status == "accepted" && p.2.driver_id == some driver_id)))
    (fun p => { p with status := "pending", driver_id := none })
  match r.1 with
  | none =>
    .error { status := 404,
             detail := "Request not found or you are not authorized to cancel it." }
  | some doc => .ok ({ st with pickups := r.2 }, doc)

/-- All ratings stored for one driver (the `$match {driver_id}` stage of
update_driver_average_rating). -/
def driverRatings (ratings : List Rating) (driver_id : Nat) : List Rating :=
  ratings.filter (fun r => r.driver_id == driver_id)

/-- The aggregate written back by update_driver_average_rating
(src/drivers/drivers.py): `round(mean * 2) / 2`, the mean rounded to the
nearest half star with Python's round-half-to-even.  The exact rational
`mean * 2 = (2 * sum) / count` and the final halving are built with
`Rat.divInt` (exact division). -/
def halfStarAverage (rs : List Rating) : ℚ :=
  let sum : ℤ := (rs.map (fun r => r.rating)).sum
  Rat.divInt (roundHalfEven (Rat.divInt (2 * sum) (rs.length : Int))) 2

/-- update_driver_average_rating (src/drivers/drivers.py): full
re-aggregation over the driver's ratings; when at least one rating exists,
stores the rounded average as `rating` and the rating count as
`total_trips`. -/
def update_driver_average_rating (st : St) (driver_id : Nat) : St :=
  let rs := driverRatings st.ratings driver_id
  if rs.isEmpty then st
  else
    { st with
        drivers := updateOne st.drivers driver_id
          (fun d => { d with rating := halfStarAverage rs,
                             total_trips := (rs.length : Int) }) }

/-- Request body of POST /api/drivers/{driver_id}/rate (RatingCreate in
src/drivers/drivers.py; Pydantic validates 0 < rating ≤ 5 before the
handler runs). -/
structure RatingCreate where
  booking_id : Nat
  rating : Int
deriving DecidableEq

/-- rate_driver (src/drivers/drivers.py): validates booking existence,
ownership, driver match and completed status, rejects a second rating of
the same booking, then inserts the rating and re-aggregates the driver's
average. -/
def rate_driver (st : St) (user_id driver_id : Nat) (rd : RatingCreate) :
    Except Err St :=
  match findOne st.bookings rd.booking_id with
  | none => .error { status := 404, detail := "Booking not found." }
  | some booking =>
    if booking.user_id ≠ user_id then
      .error { status := 403, detail := "You can only rate your own bookings." }
    else
      match findOne st.tours booking.tour_id with
      | none => .error { status := 400, detail := "Driver does not match the booking." }
      | some tour =>
        if tour.driver_id ≠ driver_id then
          .error { status := 400, detail := "Driver does not match the booking." }
        else if booking.status ≠ "completed" then
          .error { status := 400, detail := "You can only rate completed rides." }
        else if (st.ratings.filter (fun r => r.booking_id == rd.booking_id)) ≠ [] then
          .error { status := 400, detail := "This booking has already been rated." }
        else
          let st1 : St :=
            { st with ratings := st.ratings ++
                [{ driver_id := driver_id, user_id := user_id,
                   booking_id := rd.booking_id, rating := rd.rating }] }
          .ok (update_driver_average_rating st1 driver_id)

/-- Query filters of GET /api/tours/ (src/tours/tours.py).  The handler
tests each with Python truthiness, so an empty string / 0.0 behaves like
an absent filter; the date string is modelled post-parse as an `Int`. -/
structure TourFilters where
  from_location : Option String
  to_location : Option String
  max_price : Option ℚ
  date : Option Int
deriving DecidableEq

/-- ASCII lower-casing of one character (the document fields here are
plain location names). -/
def asciiLower (c : Char) : Char :=
  if 'A' ≤ c ∧ c ≤ 'Z' then Char.ofNat (c.toNat + 32) else c

/-- `ns` is a prefix of `hs`. -/
def charsPrefix : List Char → List Char → Bool
  | [], _ => true
  | _ :: _, [] => false
  | a :: ns, b :: hs => a == b && charsPrefix ns hs

/-- `ns` occurs as a contiguous substring of `hs`. -/
def charsSubstr (ns : List Char) : List Char → Bool
  | [] => charsPrefix ns []
  | b :: hs => charsPrefix ns (b :: hs) || charsSubstr ns hs

/-- Case-insensitive substring test, the meaning of
`{"$regex": s, "$options": "i"}` for a metacharacter-free pattern. -/
def substrCI (needle hay : String) : Bool :=
  charsSubstr (needle.toList.map asciiLower) (hay.toList.map asciiLower)

/-- Tour ids of the viewer's non-cancelled bookings (the exclusion list
built at the top of get_tours). -/
def bookedTourIds (st : St) (uid : Nat) : List Nat :=
  (st.bookings.filter
    (fun p => p.2.user_id == uid && p.2.status != "cancelled")).map
    (fun p => p.2.tour_id)

/-- The `$match` stage of get_tours: active, not full, not already booked
by the viewer (only when the exclusion list is non-empty, as in the
source), plus the optional truthy filters. -/
def matchesFilters (flt : TourFilters) (booked : List Nat) (tid : Nat)
    (t : Tour) : Bool :=
  t.status == "active" &&
  decide (t.current_capacity < t.max_capacity) &&
  (booked.isEmpty || !(booked.contains tid)) &&
  (match flt.from_location with
   | none => true
   | some s => s == "" || substrCI s t.from_location) &&
  (match flt.to_location with
   | none => true
   | some s => s == "" || substrCI s t.to_location) &&
  (match flt.max_price with
   | none => true
   | some p => p == 0 || decide (t.price_per_person ≤ p)) &&
  (match flt.date with
   | none => true
   | some d => decide (d ≤ t.departure_time))

/-- The `$sort` key of get_tours: the looked-up driver's `tour_count`
field; `none` models a missing BSON field (absent driver or — as for
every driver this backend creates — absent field), which sorts before
every number ascending. -/
def listingSortKey (st : St) (p : Nat × Tour) : Option Int :=
  match findOne st.drivers p.2.driver_id with
  | none => none
  | some d => d.tour_count

/-- The `$sort {driver_details.tour_count: 1, created_at: -1}` order:
tour_count ascending with missing first, ties broken by created_at
descending. -/
def listingLE (st : St) (a b : Nat × Tour) : Bool :=
  match listingSortKey st a, listingSortKey st b with
  | none, none => decide (b.2.created_at ≤ a.2.created_at)
  | none, some _ => true
  | some _, none => false
  | some x, some y =>
    decide (x < y) || (x == y && decide (b.2.created_at ≤ a.2.created_at))

/-- Stable insertion into a sorted list. -/
def insertSorted {α : Type} (le : α → α → Bool) (a : α) :
    List α → List α
  | [] => [a]
  | b :: t => if le a b then a :: b :: t else b :: insertSorted le a t

/-- Stable sort by a boolean comparator (the model of the `$sort` stage). -/
def insertionSort {α : Type} (le : α → α → Bool) : List α → List α
  | [] => []
  | a :: t => insertSorted le a (insertionSort le t)

/-- get_tours (src/tours/tours.py): match active, non-full, optionally
filtered and viewer-excluded tours, sort by the driver tour_count key
then created_at descending, return at most 100. -/
def get_tours (st : St) (flt : TourFilters) (viewer : Option Nat) :
    List (Nat × Tour) :=
  let booked := match viewer with
    | none => []
    | some u => bookedTourIds st u
  let matched := st.tours.filter (fun p => matchesFilters flt booked p.1 p.2)
  (insertionSort (listingLE st) matched).take 100

/-- The number of tours a driver has actually published — what the spec's
ranking key ("the owning driver's total published tour count") denotes.
Defined from the spec's words, for comparison with the code's sort key. -/
def publishedTourCount (st : St) (driver_id : Nat) : Nat :=
  (st.tours.filter (fun p => p.2.driver_id == driver_id)).length

/-- The ranking the spec describes: ascending by the owning driver's
published tour count, ties broken by created_at descending.  Defined from
the spec's words, for comparison with `get_tours`. -/
def specRankingLE (st : St) (a b : Nat × Tour) : Bool :=
  decide (publishedTourCount st a.2.driver_id < publishedTourCount st b.2.driver_id) ||
  (publishedTourCount st a.2.driver_id == publishedTourCount st b.2.driver_id &&
   decide (b.2.created_at ≤ a.2.created_at))

/-- One sequential booking-lifecycle operation (the operations quantified
over by the capacity invariant). -/
inductive BookingOp where
  | create (user_id : Nat) (req : BookingCreate)
  | cancel (user_id : Nat) (booking_id : Nat)
  | complete (driver_id : Nat) (booking_id : Nat)
deriving DecidableEq

/-- Run one operation; an HTTPException leaves the store unchanged. -/
def runBookingOp (st : St) (op : BookingOp) : St :=
  match op with
  | .create u r =>
    match create_booking st u r with
    | .ok p => p.1
    | .error _ => st
  | .cancel u b =>
    match cancel_booking st u b with
    | .ok s => s
    | .error _ => st
  | .complete d b =>
    match complete_booking st d b with
    | .ok s => s
    | .error _ => st

/-- Run a sequence of booking-lifecycle operations. -/
def runBookingOps (st : St) (ops : List BookingOp) : St :=
  ops.foldl runBookingOp st

/-- A create request is well-formed per the data model (`numberOfPeople > 0`);
cancel and complete requests are unconstrained. -/
def opValid (op : BookingOp) : Bool :=
  match op with
  | .create _ r => decide (1 ≤ r.number_of_people)
  | _ => true

/-- The seats of tour `T` a booking currently consumes: its
`number_of_people` while the booking is upcoming, paid or completed
(cancelling is the only transition that returns seats). -/
def consumes (T : Nat) (b : Booking) : Int :=
  if b.tour_id = T ∧
      (b.status = "upcoming" ∨ b.status = "paid" ∨ b.status = "completed")
  then b.number_of_people else 0

/-- Total seats of tour `T` consumed by a bookings collection. -/
def tourLoad (T : Nat) (l : List (Nat × Booking)) : Int :=
  (l.map (fun p => consumes T p.2)).sum

/-- Inductive invariant tying tour `T`'s stored `current_capacity` to the
bookings collection: the capacity equals the consumed-seat total, stays at
most `max_capacity`, every booking of `T` has a positive party size, and
booking ids are unique and below the freshness counter. -/
def CapInv (T : Nat) (st : St) : Prop :=
  (∃ t, findOne st.tours T = some t ∧
    t.current_capacity = tourLoad T st.bookings ∧
    t.current_capacity ≤ t.max_capacity) ∧
  (∀ p ∈ st.bookings, p.2.tour_id = T → 1 ≤ p.2.number_of_people) ∧
  (st.bookings.map Prod.fst).Nodup ∧
  (∀ p ∈ st.bookings, p.1 < st.next_id)

/-! Concrete stores used to instantiate the theorems below. -/

/-- The empty store. -/
def exEmpty : St := ⟨[], [], [], [], [], 0⟩

/-- A store with one driver (id 1) and one active 4-seat tour (id 0). -/
def exTourSt : St :=
  ⟨[(0, ⟨1, "A", "B", 100, 4, 0, 25, "active", 5⟩)],
   [], [(1, ⟨"a", "A", 0, 0, none⟩)], [], [], 2⟩

/-- `exTourSt` after user 7 books 2 cash seats on tour 0 (booking id 2). -/
def exBookedSt : St :=
  ⟨[(0, ⟨1, "A", "B", 100, 4, 2, 25, "active", 5⟩)],
   [(2, ⟨0, 7, 2, 50, "cash", "upcoming"⟩)],
   [(1, ⟨"a", "A", 0, 0, none⟩)], [], [], 3⟩

/-- Like `exBookedSt` but with the booking already completed. -/
def exCompletedSt : St :=
  ⟨[(0, ⟨1, "A", "B", 100, 4, 2, 25, "active", 5⟩)],
   [(2, ⟨0, 7, 2, 50, "cash", "completed"⟩)],
   [(1, ⟨"a", "A", 0, 0, none⟩)], [], [], 3⟩

/-- `exBookedSt` after user 7 cancelled booking 2 (seats returned). -/
def exCancelledSt : St :=
  ⟨[(0, ⟨1, "A", "B", 100, 4, 0, 25, "active", 5⟩)],
   [(2, ⟨0, 7, 2, 50, "cash", "cancelled"⟩)],
   [(1, ⟨"a", "A", 0, 0, none⟩)], [], [], 3⟩

/-- `exCompletedSt` with booking 2 already rated (rating 4 for driver 1). -/
def exRatedSt : St :=
  ⟨[(0, ⟨1, "A", "B", 100, 4, 2, 25, "active", 5⟩)],
   [(2, ⟨0, 7, 2, 50, "cash", "completed"⟩)],
   [(1, ⟨"a", "A", 4, 1, none⟩)], [⟨1, 7, 2, 4⟩], [], 3⟩

/-- A store with a single pending pickup request (id 9) from user 3. -/
def exPendingSt : St := ⟨[], [], [], [], [(9, ⟨3, "pending", none⟩)], 10⟩

/-- `exPendingSt` after driver 1 accepted request 9. -/
def exAcceptedSt : St := ⟨[], [], [], [], [(9, ⟨3, "accepted", some 1⟩)], 10⟩

/-- Two drivers (1 and 2) registered, no tours yet. -/
def exTwoDrivers : St :=
  ⟨[], [], [(1, ⟨"a", "A", 0, 0, none⟩), (2, ⟨"b", "B", 0, 0, none⟩)],
   [], [], 10⟩

/-- Driver 1 publishes tours 10 (created 5) and 11 (created 10); driver 2
publishes tour 12 (created 7).  All active with free seats. -/
def exListingSt : St :=
  (create_tour
    (create_tour
      (create_tour exTwoDrivers 1 ⟨"X", "Y", 100, 4, 25⟩ 5).1
      1 ⟨"X", "Y", 100, 4, 25⟩ 10).1
    2 ⟨"X", "Y", 100, 4, 25⟩ 7).1

/-- GET /api/tours/ with no query filters. -/
def noFilters : TourFilters := ⟨none, none, none, none⟩

/-! Lemmas about the storage primitives. -/

theorem findOne_updateOne_self {α : Type} {l : List (Nat × α)} {i : Nat}
    {a : α} (f : α → α) (h : findOne l i = some a) :
    findOne (updateOne l i f) i = some (f a) := by
  induction l with
  | nil => simp [findOne] at h
  | cons p t ih =>
    by_cases hp : p.1 = i
    · simp only [findOne, if_pos hp, Option.some.injEq] at h
      simp [updateOne, if_pos hp, findOne, hp, h]
    · simp only [findOne, if_neg hp] at h
      simp only [updateOne, if_neg hp, findOne, hp]
      exact ih h

theorem findOne_updateOne_ne {α : Type} {l : List (Nat × α)} {i j : Nat}
    (f : α → α) (h : j ≠ i) :
    findOne (updateOne l i f) j = findOne l j := by
  induction l with
  | nil => simp [findOne, updateOne]
  | cons p t ih =>
    by_cases hp : p.1 = i
    · have hpj : ¬ p.1 = j := fun hc => h (hc ▸ hp)
      simp [updateOne, if_pos hp, findOne, hpj]
    · simp only [updateOne, if_neg hp, findOne]
      by_cases hpj : p.1 = j
      · simp [hpj]
      · simp [hpj, ih]

theorem updateOne_map_fst {α : Type} (l : List (Nat × α)) (i : Nat)
    (f : α → α) : (updateOne l i f).map Prod.fst = l.map Prod.fst := by
  induction l with
  | nil => rfl
  | cons p t ih =>
    by_cases hp : p.1 = i
    · simp [updateOne, if_pos hp]
    · simp [updateOne, if_neg hp, ih]

theorem findOne_append {α : Type} (l l2 : List (Nat × α)) (i : Nat) :
    findOne (l ++ l2) i =
      match findOne l i with
      | some a => some a
      | none => findOne l2 i := by
  induction l with
  | nil => simp [findOne]
  | cons p t ih =>
    by_cases hp : p.1 = i
    · simp [findOne, if_pos hp]
    · simp [findOne, if_neg hp, ih]

theorem findOne_append_fresh {α : Type} {l : List (Nat × α)} {i : Nat}
    (a : α) (h : ∀ p ∈ l, p.1 ≠ i) :
    findOne (l ++ [(i, a)]) i = some a := by
  induction l with
  | nil => simp [findOne]
  | cons p t ih =>
    have hp : ¬ p.1 = i := h p (List.mem_cons_self p t)
    simp only [List.cons_append, findOne, if_neg hp]
    exact ih (fun q hq => h q (List.mem_cons_of_mem p hq))

theorem findOneWith_eq_none {α : Type} {l : List (Nat × α)}
    {q : Nat × α → Bool} (h : ∀ p ∈ l, q p = false) :
    findOneWith l q = none := by
  induction l with
  | nil => rfl
  | cons p t ih =>
    simp only [findOneWith, h p (List.mem_cons_self p t)]
    simp only [Bool.false_eq_true, if_false]
    exact ih (fun r hr => h r (List.mem_cons_of_mem p hr))

theorem findOneWith_of_findOne {α : Type} {l : List (Nat × α)} {i : Nat}
    {a : α} {q : Nat × α → Bool} (h : findOne l i = some a)
    (hqa : q (i, a) = true) (hkey : ∀ p, q p = true → p.1 = i) :
    findOneWith l q = some (i, a) := by
  induction l with
  | nil => simp [findOne] at h
  | cons p t ih =>
    by_cases hp : p.1 = i
    · simp only [findOne, if_pos hp, Option.some.injEq] at h
      have hpe : p = (i, a) := by
        cases p; simp_all
      subst hpe
      simp [findOneWith, hqa]
    · simp only [findOne, if_neg hp] at h
      have hqp : ¬ q p = true := fun hc => hp (hkey p hc)
      simp only [findOneWith, if_neg hqp]
      exact ih h

theorem findOneWith_prop {α : Type} {l : List (Nat × α)}
    {q : Nat × α → Bool} {pr : Nat × α} (h : findOneWith l q = some pr) :
    q pr = true := by
  induction l with
  | nil => simp [findOneWith] at h
  | cons p t ih =>
    by_cases hq : q p = true
    · simp only [findOneWith, if_pos hq, Option.some.injEq] at h
      exact h ▸ hq
    · simp only [findOneWith, if_neg hq] at h
      exact ih h

theorem findOneWith_mem {α : Type} {l : List (Nat × α)}
    {q : Nat × α → Bool} {pr : Nat × α} (h : findOneWith l q = some pr) :
    pr ∈ l := by
  induction l with
  | nil => simp [findOneWith] at h
  | cons p t ih =>
    by_cases hq : q p = true
    · simp only [findOneWith, if_pos hq, Option.some.injEq] at h
      exact h ▸ List.mem_cons_self p t
    · simp only [findOneWith, if_neg hq] at h
      exact List.mem_cons_of_mem p (ih h)

theorem findOneWith_some_key {α : Type} {l : List (Nat × α)} {i : Nat}
    {q : Nat × α → Bool} {pr : Nat × α}
    (hnd : (l.map Prod.fst).Nodup) (h : findOneWith l q = some pr)
    (hkey : ∀ p, q p = true → p.1 = i) :
    pr.1 = i ∧ findOne l i = some pr.2 := by
  induction l with
  | nil => simp [findOneWith] at h
  | cons p t ih =>
    simp only [List.map_cons, List.nodup_cons] at hnd
    by_cases hq : q p = true
    · simp only [findOneWith, if_pos hq, Option.some.injEq] at h
      subst h
      exact ⟨hkey p hq, by simp [findOne, hkey p hq]⟩
    · simp only [findOneWith, if_neg hq] at h
      obtain ⟨h1, h2⟩ := ih hnd.2 h
      refine ⟨h1, ?_⟩
      have hp : ¬ p.1 = i := by
        intro hc
        have : pr.2 ∈ t.map Prod.snd := by
          have hm := findOneWith_mem h
          exact List.mem_map_of_mem Prod.snd hm
        have hm := findOneWith_mem h
        have : pr.1 ∈ t.map Prod.fst := List.mem_map_of_mem Prod.fst hm
        exact hnd.1 (by rw [hc, ← h1]; exact this)
      simp [findOne, hp, h2]

theorem findOneAndUpdate_of_findOne {α : Type} {l : List (Nat × α)}
    {i : Nat} {a : α} {q : Nat × α → Bool} (f : α → α)
    (h : findOne l i = some a) (hqa : q (i, a) = true)
    (hkey : ∀ p, q p = true → p.1 = i) :
    findOneAndUpdate l q f = (some (f a), updateOne l i f) := by
  induction l with
  | nil => simp [findOne] at h
  | cons p t ih =>
    by_cases hp : p.1 = i
    · simp only [findOne, if_pos hp, Option.some.injEq] at h
      have hpe : p = (i, a) := by
        cases p; simp_all
      subst hpe
      simp [findOneAndUpdate, hqa, updateOne]
    · simp only [findOne, if_neg hp] at h
      have hqp : ¬ q p = true := fun hc => hp (hkey p hc)
      simp only [findOneAndUpdate, if_neg hqp, updateOne, if_neg hp]
      rw [ih h]

theorem findOneAndUpdate_none {α : Type} {l : List (Nat × α)}
    {q : Nat × α → Bool} (f : α → α) (h : ∀ p ∈ l, q p = false) :
    findOneAndUpdate l q f = (none, l) := by
  induction l with
  | nil => rfl
  | cons p t ih =>
    have hq : ¬ q p = true := by simp [h p (List.mem_cons_self p t)]
    simp only [findOneAndUpdate, if_neg hq]
    rw [ih (fun r hr => h r (List.mem_cons_of_mem p hr))]

theorem updateOne_self_eq {α : Type} {l : List (Nat × α)} {i : Nat} {a : α}
    (f : α → α) (h : findOne l i = some a) (hfa : f a = a) :
    updateOne l i f = l := by
  induction l with
  | nil => rfl
  | cons p t ih =>
    by_cases hp : p.1 = i
    · simp only [findOne, if_pos hp, Option.some.injEq] at h
      obtain ⟨k, b⟩ := p
      cases h
      simp [updateOne, if_pos hp, hfa]
    · simp only [findOne, if_neg hp] at h
      simp [updateOne, if_neg hp, ih h]

theorem updateOne_forall {α : Type} {l : List (Nat × α)} {i : Nat}
    {f : α → α} {P : α → Prop} (hl : ∀ p ∈ l, P p.2)
    (hf : ∀ b, P b → P (f b)) : ∀ p ∈ updateOne l i f, P p.2 := by
  induction l with
  | nil => simp [updateOne]
  | cons p t ih =>
    by_cases hp : p.1 = i
    · simp only [updateOne, if_pos hp]
      intro r hr
      rcases List.mem_cons.mp hr with h1 | h2
      · exact h1 ▸ hf p.2 (hl p (List.mem_cons_self p t))
      · exact hl r (List.mem_cons_of_mem p h2)
    · simp only [updateOne, if_neg hp]
      intro r hr
      rcases List.mem_cons.mp hr with h1 | h2
      · exact h1 ▸ hl p (List.mem_cons_self p t)
      · exact ih (fun s hs => hl s (List.mem_cons_of_mem p hs)) r h2

theorem updateOne_forall_fst {α : Type} {l : List (Nat × α)} {i : Nat}
    {f : α → α} {R : Nat → Prop} (hl : ∀ p ∈ l, R p.1) :
    ∀ p ∈ updateOne l i f, R p.1 := by
  intro p hp
  have : p.1 ∈ (updateOne l i f).map Prod.fst := List.mem_map_of_mem Prod.fst hp
  rw [updateOne_map_fst] at this
  obtain ⟨r, hr, he⟩ := List.mem_map.mp this
  exact he ▸ hl r hr

/-! Lemmas about the capacity accounting. -/

theorem consumes_nonneg {T : Nat} {b : Booking}
    (h : b.tour_id = T → 1 ≤ b.number_of_people) : 0 ≤ consumes T b := by
  unfold consumes
  split
  · next hc => exact le_trans (by norm_num) (h hc.1)
  · exact le_refl 0

theorem tourLoad_nonneg {T : Nat} {l : List (Nat × Booking)}
    (h : ∀ p ∈ l, p.2.tour_id = T → 1 ≤ p.2.number_of_people) :
    0 ≤ tourLoad T l := by
  induction l with
  | nil => simp [tourLoad]
  | cons p t ih =>
    simp only [tourLoad, List.map_cons, List.sum_cons]
    have h1 : 0 ≤ consumes T p.2 :=
      consumes_nonneg (h p (List.mem_cons_self p t))
    have h2 : 0 ≤ tourLoad T t :=
      ih (fun r hr => h r (List.mem_cons_of_mem p hr))
    simpa [tourLoad] using add_nonneg h1 h2

theorem tourLoad_append (T : Nat) (l : List (Nat × Booking))
    (p : Nat × Booking) :
    tourLoad T (l ++ [p]) = tourLoad T l + consumes T p.2 := by
  simp [tourLoad]

theorem tourLoad_eq_zero {T : Nat} {l : List (Nat × Booking)}
    (h : ∀ p ∈ l, p.2.tour_id ≠ T) : tourLoad T l = 0 := by
  induction l with
  | nil => rfl
  | cons p t ih =>
    simp only [tourLoad, List.map_cons, List.sum_cons]
    have h1 : consumes T p.2 = 0 := by
      unfold consumes
      rw [if_neg]
      intro hc
      exact h p (List.mem_cons_self p t) hc.1
    have h2 := ih (fun r hr => h r (List.mem_cons_of_mem p hr))
    simp only [tourLoad] at h2
    rw [h1, h2, zero_add]

theorem tourLoad_updateOne {T : Nat} {l : List (Nat × Booking)} {i : Nat}
    {a : Booking} (f : Booking → Booking) (h : findOne l i = some a) :
    tourLoad T (updateOne l i f) =
      tourLoad T l - consumes T a + consumes T (f a) := by
  induction l with
  | nil => simp [findOne] at h
  | cons p t ih =>
    by_cases hp : p.1 = i
    · simp only [findOne, if_pos hp, Option.some.injEq] at h
      subst h
      simp only [updateOne, if_pos hp, tourLoad, List.map_cons, List.sum_cons]
      ring
    · simp only [findOne, if_neg hp] at h
      simp only [updateOne, if_neg hp, tourLoad, List.map_cons, List.sum_cons]
      have := ih h
      simp only [tourLoad] at this
      rw [this]
      ring

/-! Characterizations of the handlers, one equation per control path. -/

theorem create_booking_not_found {st : St} {u : Nat} {r : BookingCreate}
    (h : findOne st.tours r.tour_id = none) :
    create_booking st u r = .error ⟨404, "Tour not found"⟩ := by
  simp [create_booking, h]

theorem create_booking_capacity {st : St} {u : Nat} {r : BookingCreate}
    {t : Tour} (h : findOne st.tours r.tour_id = some t)
    (hover : t.current_capacity + r.number_of_people > t.max_capacity) :
    create_booking st u r = .error ⟨400, "Not enough capacity on this tour."⟩ := by
  simp [create_booking, h, hover]

theorem create_booking_success {st : St} {u : Nat} {r : BookingCreate}
    {t : Tour} (h : findOne st.tours r.tour_id = some t)
    (hok : ¬ t.current_capacity + r.number_of_people > t.max_capacity) :
    create_booking st u r = .ok
      ({ st with
          bookings := st.bookings ++
            [(st.next_id,
              { tour_id := r.tour_id
                user_id := u
                number_of_people := r.number_of_people
                total_price := r.total_price
                payment_type := r.payment_type
                status := if r.payment_type = "cash" then "upcoming" else "paid" })]
          tours := updateOne st.tours r.tour_id
            (fun t => { t with
              current_capacity := t.current_capacity + r.number_of_people })
          next_id := st.next_id + 1 },
       st.next_id) := by
  simp [create_booking, h, hok]

theorem cancel_booking_lookup {st : St} {u bid : Nat} {bk : Booking}
    (hfind : findOne st.bookings bid = some bk) (huser : bk.user_id = u) :
    findOneWith st.bookings
      (fun p => p.1 == bid && p.2.user_id == u) = some (bid, bk) := by
  apply findOneWith_of_findOne hfind
  · simp [huser]
  · intro p hp
    rw [Bool.and_eq_true] at hp
    simpa using hp.1

theorem cancel_booking_not_owner {st : St} {u bid : Nat}
    (h : ∀ p ∈ st.bookings, p.1 = bid → p.2.user_id ≠ u) :
    cancel_booking st u bid =
      .error ⟨404, "Booking not found or access denied."⟩ := by
  have hnone : findOneWith st.bookings
      (fun p => p.1 == bid && p.2.user_id == u) = none := by
    apply findOneWith_eq_none
    intro p hp
    rw [Bool.eq_false_iff]
    intro hc
    rw [Bool.and_eq_true] at hc
    exact h p hp (by simpa using hc.1) (by simpa using hc.2)
  simp [cancel_booking, hnone]

theorem cancel_booking_completed {st : St} {u bid : Nat} {bk : Booking}
    (hfind : findOne st.bookings bid = some bk) (huser : bk.user_id = u)
    (hs : bk.status = "completed") :
    cancel_booking st u bid = .error
      ⟨400, "This ride has already been completed and cannot be cancelled."⟩ := by
  simp [cancel_booking, cancel_booking_lookup hfind huser, hs]

theorem cancel_booking_bad_status {st : St} {u bid : Nat} {bk : Booking}
    (hfind : findOne st.bookings bid = some bk) (huser : bk.user_id = u)
    (hs1 : bk.status ≠ "completed") (hs2 : bk.status ≠ "paid")
    (hs3 : bk.status ≠ "upcoming") :
    cancel_booking st u bid = .error
      ⟨400, "Cannot cancel a booking with status \x27" ++ bk.status ++ "\x27."⟩ := by
  simp [cancel_booking, cancel_booking_lookup hfind huser, hs1, hs2, hs3]

theorem cancel_booking_success {st : St} {u bid : Nat} {bk : Booking}
    (hfind : findOne st.bookings bid = some bk) (huser : bk.user_id = u)
    (hs : bk.status = "paid" ∨ bk.status = "upcoming") :
    cancel_booking st u bid = .ok
      { st with
        bookings := updateOne st.bookings bid
          (fun b => { b with status := "cancelled" })
        tours := updateOne st.tours bk.tour_id
          (fun t => { t with
            current_capacity := t.current_capacity - bk.number_of_people }) } := by
  have hnc : bk.status ≠ "completed" := by
    rcases hs with h | h <;> simp [h]
  simp [cancel_booking, cancel_booking_lookup hfind huser, hnc, hs]

theorem complete_booking_not_found {st : St} {d bid : Nat}
    (h : findOne st.bookings bid = none) :
    complete_booking st d bid = .error ⟨404, "Booking not found"⟩ := by
  simp [complete_booking, h]

theorem complete_booking_no_tour {st : St} {d bid : Nat} {bk : Booking}
    (hfind : findOne st.bookings bid = some bk)
    (ht : findOne st.tours bk.tour_id = none) :
    complete_booking st d bid = .error
      ⟨403, "Access forbidden: You are not the driver for this tour."⟩ := by
  simp [complete_booking, hfind, ht]

theorem complete_booking_forbidden {st : St} {d bid : Nat} {bk : Booking}
    {t : Tour} (hfind : findOne st.bookings bid = some bk)
    (ht : findOne st.tours bk.tour_id = some t) (hd : t.driver_id ≠ d) :
    complete_booking st d bid = .error
      ⟨403, "Access forbidden: You are not the driver for this tour."⟩ := by
  simp [complete_booking, hfind, ht, hd]

theorem complete_booking_bad_status {st : St} {d bid : Nat} {bk : Booking}
    {t : Tour} (hfind : findOne st.bookings bid = some bk)
    (ht : findOne st.tours bk.tour_id = some t) (hd : t.driver_id = d)
    (hs2 : bk.status ≠ "paid") (hs3 : bk.status ≠ "upcoming") :
    complete_booking st d bid = .error
      ⟨400, "Cannot complete a booking with status \x27" ++ bk.status ++ "\x27."⟩ := by
  simp [complete_booking, hfind, ht, hd, hs2, hs3]

theorem complete_booking_success {st : St} {d bid : Nat} {bk : Booking}
    {t : Tour} (hfind : findOne st.bookings bid = some bk)
    (ht : findOne st.tours bk.tour_id = some t) (hd : t.driver_id = d)
    (hs : bk.status = "paid" ∨ bk.status = "upcoming") :
    complete_booking st d bid = .ok
      { st with
        bookings := updateOne st.bookings bid
          (fun b => { b with status := "completed" }) } := by
  simp [complete_booking, hfind, ht, hd, hs]

theorem accept_pickup_success {st : St} {d rid : Nat} {pr : Pickup}
    (hfind : findOne st.pickups rid = some pr) (hp : pr.status = "pending") :
    accept_pickup_request st d rid = .ok
      ({ st with
          pickups := updateOne st.pickups rid
            (fun p => { p with status := "accepted", driver_id := some d }) },
       { pr with status := "accepted", driver_id := some d }) := by
  have he := findOneAndUpdate_of_findOne
    (l := st.pickups)
    (q := fun p => p.1 == rid && p.2.status == "pending")
    (fun p => { p with status := "accepted", driver_id := some d })
    hfind (by simp [hp]) (by
      intro p hq
      rw [Bool.and_eq_true] at hq
      simpa using hq.1)
  simp [accept_pickup_request, he]

theorem accept_pickup_failure {st : St} {d rid : Nat}
    (h : ∀ p ∈ st.pickups, p.1 = rid → p.2.status ≠ "pending") :
    accept_pickup_request st d rid =
      .error ⟨404, "Request not found or already handled."⟩ := by
  have he := findOneAndUpdate_none
    (l := st.pickups)
    (q := fun p => p.1 == rid && p.2.status == "pending")
    (fun p => { p with status := "accepted", driver_id := some d })
    (by
      intro p hp
      rw [Bool.eq_false_iff]
      intro hc
      rw [Bool.and_eq_true] at hc
      exact h p hp (by simpa using hc.1) (by simpa using hc.2))
  simp [accept_pickup_request, he]

theorem cancel_pickup_success {st : St} {d rid : Nat} {pr : Pickup}
    (hfind : findOne st.pickups rid = some pr)
    (hp : pr.status = "pending" ∨
          (pr.status = "accepted" ∧ pr.driver_id = some d)) :
    cancel_pickup_request st d rid = .ok
      ({ st with
          pickups := updateOne st.pickups rid
            (fun p => { p with status := "pending", driver_id := none }) },
       { pr with status := "pending", driver_id := none }) := by
  have he := findOneAndUpdate_of_findOne
    (l := st.pickups)
    (q := fun p => p.1 == rid &&
      (p.2.status == "pending" ||
       (p.2.status == "accepted" && p.2.driver_id == some d)))
    (fun p => { p with status := "pending", driver_id := none })
    hfind (by
      rcases hp with h | ⟨h1, h2⟩ <;> simp [*])
    (by
      intro p hq
      rw [Bool.and_eq_true] at hq
      simpa using hq.1)
  simp [cancel_pickup_request, he]

theorem cancel_pickup_failure {st : St} {d rid : Nat}
    (h : ∀ p ∈ st.pickups, p.1 = rid →
      p.2.status ≠ "pending" ∧
      (p.2.status = "accepted" → p.2.driver_id ≠ some d)) :
    cancel_pickup_request st d rid = .error
      ⟨404, "Request not found or you are not authorized to cancel it."⟩ := by
  have he := findOneAndUpdate_none
    (l := st.pickups)
    (q := fun p => p.1 == rid &&
      (p.2.status == "pending" ||
       (p.2.status == "accepted" && p.2.driver_id == some d)))
    (fun p => { p with status := "pending", driver_id := none })
    (by
      intro p hp
      rw [Bool.eq_false_iff]
      intro hc
      rw [Bool.and_eq_true] at hc
      obtain ⟨hc1, hc2⟩ := hc
      have hk : p.1 = rid := by simpa using hc1
      obtain ⟨hs, hd⟩ := h p hp hk
      simp only [Bool.or_eq_true, Bool.and_eq_true, beq_iff_eq] at hc2
      rcases hc2 with h1 | ⟨h2, h3⟩
      · exact hs h1
      · exact hd h2 h3)
  simp [cancel_pickup_request, he]

/-! The capacity invariant: establishment at tour creation and
preservation by every booking-lifecycle operation. -/

theorem capInv_create_tour (st : St) (d : Nat) (tc : TourCreate) (now : Int)
    (hmax : 0 ≤ tc.max_capacity)
    (hnd : (st.bookings.map Prod.fst).Nodup)
    (hfresh : ∀ p ∈ st.bookings, p.1 < st.next_id)
    (htf : ∀ p ∈ st.tours, p.1 ≠ st.next_id)
    (hnb : ∀ p ∈ st.bookings, p.2.tour_id ≠ st.next_id) :
    CapInv (create_tour st d tc now).2 (create_tour st d tc now).1 := by
  refine ⟨⟨_, findOne_append_fresh _ htf, ?_, ?_⟩, ?_, hnd, ?_⟩
  · exact (tourLoad_eq_zero hnb).symm
  · exact hmax
  · intro p hp hT
    exact absurd hT (hnb p hp)
  · intro p hp
    exact Nat.lt_succ_of_lt (hfresh p hp)

theorem capInv_create (T : Nat) (st : St) (u : Nat) (r : BookingCreate)
    (h : CapInv T st) (hn : 1 ≤ r.number_of_people) :
    CapInv T (runBookingOp st (.create u r)) := by
  obtain ⟨⟨t, hft, hload, hmax⟩, hpos, hnd, hfresh⟩ := h
  cases hfind : findOne st.tours r.tour_id with
  | none =>
    simp only [runBookingOp, create_booking_not_found hfind]
    exact ⟨⟨t, hft, hload, hmax⟩, hpos, hnd, hfresh⟩
  | some tour =>
    by_cases hov : tour.current_capacity + r.number_of_people > tour.max_capacity
    · simp only [runBookingOp, create_booking_capacity hfind hov]
      exact ⟨⟨t, hft, hload, hmax⟩, hpos, hnd, hfresh⟩
    · simp only [runBookingOp, create_booking_success hfind hov]
      refine ⟨?_, ?_, ?_, ?_⟩
      · by_cases hT : r.tour_id = T
        · subst hT
          have htt : tour = t := by
            rw [hfind] at hft
            exact Option.some.inj hft
          subst htt
          refine ⟨{ tour with current_capacity :=
              tour.current_capacity + r.number_of_people },
            findOne_updateOne_self _ hft, ?_,
            show tour.current_capacity + r.number_of_people ≤
              tour.max_capacity by omega⟩
          rw [tourLoad_append]
          have hcon : consumes r.tour_id
              { tour_id := r.tour_id, user_id := u,
                number_of_people := r.number_of_people,
                total_price := r.total_price,
                payment_type := r.payment_type,
                status := if r.payment_type = "cash" then "upcoming" else "paid" }
              = r.number_of_people := by
            unfold consumes
            rw [if_pos]
            refine ⟨rfl, ?_⟩
            by_cases hc : r.payment_type = "cash"
            · left; simp [hc]
            · right; left; simp [hc]
          simp only [hcon]
          omega
        · refine ⟨t, ?_, ?_, hmax⟩
          · rw [findOne_updateOne_ne _ (fun hc => hT hc.symm)]
            exact hft
          · rw [tourLoad_append]
            have hcon : consumes T
                { tour_id := r.tour_id, user_id := u,
                  number_of_people := r.number_of_people,
                  total_price := r.total_price,
                  payment_type := r.payment_type,
                  status := if r.payment_type = "cash" then "upcoming" else "paid" }
                = 0 := by
              unfold consumes
              rw [if_neg]
              intro hc
              exact hT hc.1
            rw [hcon, add_zero]
            exact hload
      · intro p hp
        rcases List.mem_append.mp hp with h1 | h2
        · exact hpos p h1
        · have : p = (st.next_id, _) := List.mem_singleton.mp h2
          subst this
          intro _
          exact hn
      · rw [List.map_append]
        rw [List.nodup_append]
        refine ⟨hnd, List.nodup_singleton _, ?_⟩
        intro x hx hx2
        have hxe : x = st.next_id := by simpa using hx2
        obtain ⟨p, hp, he⟩ := List.mem_map.mp hx
        have := hfresh p hp
        omega
      · intro p hp
        rcases List.mem_append.mp hp with h1 | h2
        · exact Nat.lt_succ_of_lt (hfresh p h1)
        · have : p = (st.next_id, _) := List.mem_singleton.mp h2
          subst this
          exact Nat.lt_succ_self _

theorem capInv_cancel (T : Nat) (st : St) (u bid : Nat)
    (h : CapInv T st) : CapInv T (runBookingOp st (.cancel u bid)) := by
  obtain ⟨⟨t, hft, hload, hmax⟩, hpos, hnd, hfresh⟩ := h
  cases hw : findOneWith st.bookings
      (fun p => p.1 == bid && p.2.user_id == u) with
  | none =>
    simp only [runBookingOp, cancel_booking, hw, Option.map_none]
    exact ⟨⟨t, hft, hload, hmax⟩, hpos, hnd, hfresh⟩
  | some pr =>
    obtain ⟨hk, hfb⟩ := findOneWith_some_key (i := bid) hnd hw
      (fun p hp => by
        rw [Bool.and_eq_true] at hp
        simpa using hp.1)
    have hqp := findOneWith_prop hw
    rw [Bool.and_eq_true] at hqp
    have huser : pr.2.user_id = u := by simpa using hqp.2
    by_cases hcs : pr.2.status = "completed"
    · simp only [runBookingOp, cancel_booking_completed hfb huser hcs]
      exact ⟨⟨t, hft, hload, hmax⟩, hpos, hnd, hfresh⟩
    · by_cases hps : pr.2.status = "paid" ∨ pr.2.status = "upcoming"
      · simp only [runBookingOp, cancel_booking_success hfb huser hps]
        have hmem := findOneWith_mem hw
        have hlu := tourLoad_updateOne (T := T)
          (fun b => { b with status := "cancelled" }) hfb
        refine ⟨?_, ?_, ?_, ?_⟩
        · by_cases hT : pr.2.tour_id = T
          · have hc1 : consumes T pr.2 = pr.2.number_of_people := by
              unfold consumes
              rw [if_pos]
              refine ⟨hT, ?_⟩
              rcases hps with hp | hp
              · exact Or.inr (Or.inl hp)
              · exact Or.inl hp
            have hc2 : consumes T { pr.2 with status := "cancelled" } = 0 := by
              unfold consumes
              rw [if_neg]
              intro hc
              rcases hc.2 with hx | hx | hx <;> simp at hx
            have hn : 1 ≤ pr.2.number_of_people := hpos pr hmem hT
            refine ⟨{ t with current_capacity :=
                t.current_capacity - pr.2.number_of_people }, ?_, ?_, ?_⟩
            · rw [hT]
              exact findOne_updateOne_self _ hft
            · simp only [hlu, hc1, hc2]
              omega
            · show t.current_capacity - pr.2.number_of_people ≤ t.max_capacity
              omega
          · have hc1 : consumes T pr.2 = 0 := by
              unfold consumes
              rw [if_neg]
              intro hc
              exact hT hc.1
            have hc2 : consumes T { pr.2 with status := "cancelled" } = 0 := by
              unfold consumes
              rw [if_neg]
              intro hc
              exact hT hc.1
            refine ⟨t, ?_, ?_, hmax⟩
            · rw [findOne_updateOne_ne _ (fun hc => hT hc.symm)]
              exact hft
            · simp only [hlu, hc1, hc2]
              omega
        · exact updateOne_forall
            (P := fun b : Booking => b.tour_id = T → 1 ≤ b.number_of_people)
            hpos (fun b hb => hb)
        · rw [updateOne_map_fst]
          exact hnd
        · exact updateOne_forall_fst (R := fun k => k < st.next_id) hfresh
      · push_neg at hps
        simp only [runBookingOp,
          cancel_booking_bad_status hfb huser hcs hps.1 hps.2]
        exact ⟨⟨t, hft, hload, hmax⟩, hpos, hnd, hfresh⟩

theorem capInv_complete (T : Nat) (st : St) (d bid : Nat)
    (h : CapInv T st) : CapInv T (runBookingOp st (.complete d bid)) := by
  obtain ⟨⟨t, hft, hload, hmax⟩, hpos, hnd, hfresh⟩ := h
  cases hfb : findOne st.bookings bid with
  | none =>
    simp only [runBookingOp, complete_booking_not_found hfb]
    exact ⟨⟨t, hft, hload, hmax⟩, hpos, hnd, hfresh⟩
  | some bk =>
    cases hts : findOne st.tours bk.tour_id with
    | none =>
      simp only [runBookingOp, complete_booking_no_tour hfb hts]
      exact ⟨⟨t, hft, hload, hmax⟩, hpos, hnd, hfresh⟩
    | some tr =>
      by_cases hd : tr.driver_id = d
      · by_cases hps : bk.status = "paid" ∨ bk.status = "upcoming"
        · simp only [runBookingOp, complete_booking_success hfb hts hd hps]
          have hlu := tourLoad_updateOne (T := T)
            (fun b => { b with status := "completed" }) hfb
          have hcon : consumes T { bk with status := "completed" } =
              consumes T bk := by
            unfold consumes
            by_cases hT : bk.tour_id = T
            · rcases hps with hp | hp <;> simp [hT, hp]
            · simp [hT]
          refine ⟨⟨t, hft, ?_, hmax⟩, ?_, ?_, ?_⟩
          · simp only [hlu, hcon]
            omega
          · exact updateOne_forall
              (P := fun b : Booking => b.tour_id = T → 1 ≤ b.number_of_people)
              hpos (fun b hb => hb)
          · rw [updateOne_map_fst]
            exact hnd
          · exact updateOne_forall_fst (R := fun k => k < st.next_id) hfresh
        · push_neg at hps
          simp only [runBookingOp,
            complete_booking_bad_status hfb hts hd hps.1 hps.2]
          exact ⟨⟨t, hft, hload, hmax⟩, hpos, hnd, hfresh⟩
      · simp only [runBookingOp, complete_booking_forbidden hfb hts hd]
        exact ⟨⟨t, hft, hload, hmax⟩, hpos, hnd, hfresh⟩

theorem capInv_step (T : Nat) (st : St) (op : BookingOp)
    (h : CapInv T st) (hv : opValid op = true) :
    CapInv T (runBookingOp st op) := by
  cases op with
  | create u r =>
    simp only [opValid, decide_eq_true_eq] at hv
    exact capInv_create T st u r h hv
  | cancel u b => exact capInv_cancel T st u b h
  | complete d b => exact capInv_complete T st d b h

theorem capInv_run (T : Nat) (st : St) (ops : List BookingOp)
    (h : CapInv T st) (hv : ∀ op ∈ ops, opValid op = true) :
    CapInv T (runBookingOps st ops) := by
  induction ops generalizing st with
  | nil => exact h
  | cons op rest ih =>
    have h1 := capInv_step T st op h (hv op (List.mem_cons_self op rest))
    have h2 := ih (runBookingOp st op) h1
      (fun o ho => hv o (List.mem_cons_of_mem op ho))
    simpa [runBookingOps, List.foldl] using h2

/-! Additional helper lemmas for the claims. -/

theorem findOne_key_val {α : Type} {l : List (Nat × α)} {i : Nat} {a : α}
    (hnd : (l.map Prod.fst).Nodup) (h : findOne l i = some a) :
    ∀ p ∈ l, p.1 = i → p.2 = a := by
  induction l with
  | nil => simp
  | cons p t ih =>
    simp only [List.map_cons, List.nodup_cons] at hnd
    intro r hr hk
    by_cases hp : p.1 = i
    · simp only [findOne, if_pos hp, Option.some.injEq] at h
      rcases List.mem_cons.mp hr with h1 | h2
      · rw [h1]; exact h
      · exact absurd
          (show p.1 ∈ List.map Prod.fst t by
            rw [hp, ← hk]; exact List.mem_map_of_mem Prod.fst h2)
          hnd.1
    · simp only [findOne, if_neg hp] at h
      rcases List.mem_cons.mp hr with h1 | h2
      · exact absurd (h1 ▸ hk) hp
      · exact ih hnd.2 h r h2 hk

theorem updateOne_key_val {α : Type} {l : List (Nat × α)} {i : Nat} {a : α}
    (f : α → α) (hnd : (l.map Prod.fst).Nodup) (h : findOne l i = some a) :
    ∀ p ∈ updateOne l i f, p.1 = i → p.2 = f a := by
  intro p hp hk
  exact findOne_key_val
    (by rw [updateOne_map_fst]; exact hnd)
    (findOne_updateOne_self f h) p hp hk

theorem rate_driver_dup {st : St} {u d : Nat} {rd : RatingCreate}
    {bk : Booking} {t : Tour}
    (hfb : findOne st.bookings rd.booking_id = some bk) (hu : bk.user_id = u)
    (ht : findOne st.tours bk.tour_id = some t) (hd : t.driver_id = d)
    (hs : bk.status = "completed")
    (hdup : st.ratings.filter (fun r => r.booking_id == rd.booking_id) ≠ []) :
    rate_driver st u d rd =
      .error ⟨400, "This booking has already been rated."⟩ := by
  simp [rate_driver, hfb, hu, ht, hd, hs, hdup]

theorem rate_driver_success {st : St} {u d : Nat} {rd : RatingCreate}
    {bk : Booking} {t : Tour}
    (hfb : findOne st.bookings rd.booking_id = some bk) (hu : bk.user_id = u)
    (ht : findOne st.tours bk.tour_id = some t) (hd : t.driver_id = d)
    (hs : bk.status = "completed")
    (hno : st.ratings.filter (fun r => r.booking_id == rd.booking_id) = []) :
    rate_driver st u d rd = .ok (update_driver_average_rating
      { st with ratings := st.ratings ++
          [{ driver_id := d, user_id := u, booking_id := rd.booking_id,
             rating := rd.rating }] } d) := by
  simp [rate_driver, hfb, hu, ht, hd, hs, hno]

/-! The claims. -/

/-- C1 (amended): for every tour, starting from creation with
`current_capacity = 0`, provided the tour is created with a non-negative
`max_capacity` and every create request carries `numberOfPeople ≥ 1` (the
data-model constraints, which the handlers themselves do not validate —
see the counterexample below), after every sequence of sequentially
executed booking-lifecycle operations (create_booking, cancel_booking,
complete_booking) the invariant `0 ≤ current_capacity ≤ max_capacity`
holds for that tour.  The id hypotheses state what Mongo ObjectId
generation guarantees (unique, never-reused ids). -/
theorem claim_C1 (st0 : St) (d : Nat) (tc : TourCreate) (now : Int)
    (ops : List BookingOp)
    (hmax : 0 ≤ tc.max_capacity)
    (hnd : (st0.bookings.map Prod.fst).Nodup)
    (hfresh : ∀ p ∈ st0.bookings, p.1 < st0.next_id)
    (htf : ∀ p ∈ st0.tours, p.1 ≠ st0.next_id)
    (hnb : ∀ p ∈ st0.bookings, p.2.tour_id ≠ st0.next_id)
    (hv : ∀ op ∈ ops, opValid op = true) :
    ∃ t, findOne (runBookingOps (create_tour st0 d tc now).1 ops).tours
        (create_tour st0 d tc now).2 = some t ∧
      0 ≤ t.current_capacity ∧ t.current_capacity ≤ t.max_capacity := by
  have h0 := capInv_create_tour st0 d tc now hmax hnd hfresh htf hnb
  have h1 := capInv_run _ _ ops h0 hv
  obtain ⟨⟨t, hft, hload, hmaxc⟩, hpos, _, _⟩ := h1
  refine ⟨t, hft, ?_, hmaxc⟩
  rw [hload]
  exact tourLoad_nonneg hpos

/-- Witness for C1: on the empty store, driver 1 creates a 2-seat tour and
user 7 books one seat; the capacity invariant holds afterwards. -/
theorem claim_C1_witness :
    (0 : Int) ≤ 2 ∧
    ∃ t, findOne (runBookingOps (create_tour exEmpty 1 ⟨"A", "B", 100, 2, 25⟩ 5).1
        [BookingOp.create 7 ⟨0, 1, 25, "cash"⟩]).tours
        (create_tour exEmpty 1 ⟨"A", "B", 100, 2, 25⟩ 5).2 = some t ∧
      0 ≤ t.current_capacity ∧ t.current_capacity ≤ t.max_capacity :=
  ⟨by decide,
   claim_C1 exEmpty 1 ⟨"A", "B", 100, 2, 25⟩ 5
     [BookingOp.create 7 ⟨0, 1, 25, "cash"⟩]
     (by decide) (by decide) (by decide) (by decide) (by decide) (by decide)⟩

/-- C1 counterexample: the claim as stated quantifies over every
booking-lifecycle operation, but BookingCreate.number_of_people is an
unconstrained Pydantic int, so a request with `numberOfPeople = -1`
passes the capacity check (`0 + (-1) > 4` is false) and drives a freshly
created 4-seat tour's current_capacity to −1, violating
`0 ≤ current_capacity`. -/
theorem claim_C1_counterexample :
    ∃ t, findOne (runBookingOps (create_tour exEmpty 1 ⟨"A", "B", 100, 4, 25⟩ 5).1
        [BookingOp.create 7 ⟨0, -1, 25, "cash"⟩]).tours
        (create_tour exEmpty 1 ⟨"A", "B", 100, 4, 25⟩ 5).2 = some t ∧
      ¬ (0 ≤ t.current_capacity ∧ t.current_capacity ≤ t.max_capacity) := by
  refine ⟨⟨1, "A", "B", 100, 4, -1, 25, "active", 5⟩, by decide, by decide⟩

/-- C2: create_booking fails with 404 when the tour is absent; for an
existing tour it fails with the capacity error exactly when
`current_capacity + numberOfPeople > max_capacity`; on success the tour's
capacity grows by exactly `numberOfPeople` and the booking's status is
"upcoming" for cash and "paid" otherwise. -/
theorem claim_C2 (st : St) (u : Nat) (r : BookingCreate)
    (hfresh : ∀ p ∈ st.bookings, p.1 ≠ st.next_id) :
    (findOne st.tours r.tour_id = none →
      create_booking st u r = .error ⟨404, "Tour not found"⟩) ∧
    (∀ t, findOne st.tours r.tour_id = some t →
      ((create_booking st u r =
          .error ⟨400, "Not enough capacity on this tour."⟩) ↔
        t.current_capacity + r.number_of_people > t.max_capacity) ∧
      (¬ t.current_capacity + r.number_of_people > t.max_capacity →
        ∃ st', create_booking st u r = .ok (st', st.next_id) ∧
          findOne st'.tours r.tour_id = some
            { t with current_capacity :=
                t.current_capacity + r.number_of_people } ∧
          findOne st'.bookings st.next_id = some
            { tour_id := r.tour_id, user_id := u,
              number_of_people := r.number_of_people,
              total_price := r.total_price,
              payment_type := r.payment_type,
              status := if r.payment_type = "cash" then "upcoming"
                        else "paid" })) := by
  refine ⟨fun h => create_booking_not_found h, ?_⟩
  intro t ht
  constructor
  · constructor
    · intro he
      by_contra hno
      rw [create_booking_success ht hno] at he
      exact absurd he (by simp)
    · intro hov
      exact create_booking_capacity ht hov
  · intro hno
    refine ⟨_, create_booking_success ht hno, ?_, ?_⟩
    · exact findOne_updateOne_self _ ht
    · exact findOne_append_fresh _ hfresh

/-- Witness for C2: concrete capacity failure, missing-tour failure and a
successful 2-seat cash booking on the 4-seat tour of `exTourSt`. -/
theorem claim_C2_witness :
    create_booking exTourSt 7 ⟨0, 5, 50, "visa"⟩ =
      .error ⟨400, "Not enough capacity on this tour."⟩ ∧
    create_booking exEmpty 7 ⟨0, 2, 50, "cash"⟩ =
      .error ⟨404, "Tour not found"⟩ ∧
    ∃ st', create_booking exTourSt 7 ⟨0, 2, 50, "cash"⟩ = .ok (st', 2) ∧
      findOne st'.tours 0 = some ⟨1, "A", "B", 100, 4, 2, 25, "active", 5⟩ ∧
      findOne st'.bookings 2 = some ⟨0, 7, 2, 50, "cash", "upcoming"⟩ := by
  refine ⟨?_, ?_, ?_⟩
  · exact ((claim_C2 exTourSt 7 ⟨0, 5, 50, "visa"⟩ (by decide)).2
      ⟨1, "A", "B", 100, 4, 0, 25, "active", 5⟩ (by decide)).1.mpr (by decide)
  · exact (claim_C2 exEmpty 7 ⟨0, 2, 50, "cash"⟩ (by decide)).1 (by decide)
  · obtain ⟨st', h1, h2, h3⟩ :=
      ((claim_C2 exTourSt 7 ⟨0, 2, 50, "cash"⟩ (by decide)).2
        ⟨1, "A", "B", 100, 4, 0, 25, "active", 5⟩ (by decide)).2 (by decide)
    refine ⟨st', h1, ?_, ?_⟩
    · simpa using h2
    · simpa using h3

/-- C10: for a requesting user who does not own booking `bid` — whether a
booking with that id exists but belongs to another user, or no such
booking exists at all — cancel_booking returns the identical 404
"Booking not found or access denied." outcome (and, the result being an
error, performs no write), so the operation does not reveal whether the
booking exists. -/
theorem claim_C10 (st : St) (u bid : Nat)
    (h : ∀ p ∈ st.bookings, p.1 = bid → p.2.user_id ≠ u) :
    cancel_booking st u bid =
      .error ⟨404, "Booking not found or access denied."⟩ :=
  cancel_booking_not_owner h

/-- Witness for C10: user 8 cancelling booking 2 gets the same outcome on
`exBookedSt` (where booking 2 exists but belongs to user 7) and on
`exTourSt` (where booking 2 does not exist). -/
theorem claim_C10_witness :
    cancel_booking exBookedSt 8 2 =
      .error ⟨404, "Booking not found or access denied."⟩ ∧
    cancel_booking exTourSt 8 2 =
      .error ⟨404, "Booking not found or access denied."⟩ ∧
    cancel_booking exBookedSt 8 2 = cancel_booking exTourSt 8 2 := by
  refine ⟨claim_C10 exBookedSt 8 2 (by decide),
          claim_C10 exTourSt 8 2 (by decide), ?_⟩
  rw [claim_C10 exBookedSt 8 2 (by decide),
      claim_C10 exTourSt 8 2 (by decide)]

/-- C3: for a booking owned by the requesting user, cancel_booking
succeeds exactly from status "paid"/"upcoming", setting the status to
"cancelled" and decreasing the owning tour's current_capacity by the
booking's number_of_people; a "completed" booking gets the dedicated
"already completed" 400 error and any other status the generic 400 error,
the store being unchanged on every error (an error is raised before any
write). -/
theorem claim_C3 (st : St) (u bid : Nat) (bk : Booking)
    (hfind : findOne st.bookings bid = some bk) (huser : bk.user_id = u) :
    (bk.status = "completed" →
      cancel_booking st u bid = .error
        ⟨400, "This ride has already been completed and cannot be cancelled."⟩) ∧
    (bk.status ≠ "completed" → bk.status ≠ "paid" → bk.status ≠ "upcoming" →
      cancel_booking st u bid = .error
        ⟨400, "Cannot cancel a booking with status \x27" ++ bk.status ++ "\x27."⟩) ∧
    (bk.status = "paid" ∨ bk.status = "upcoming" →
      cancel_booking st u bid = .ok
        { st with
          bookings := updateOne st.bookings bid
            (fun b => { b with status := "cancelled" })
          tours := updateOne st.tours bk.tour_id
            (fun t => { t with current_capacity :=
              t.current_capacity - bk.number_of_people }) } ∧
      ∀ st', cancel_booking st u bid = .ok st' →
        findOne st'.bookings bid = some { bk with status := "cancelled" } ∧
        ∀ t, findOne st.tours bk.tour_id = some t →
          findOne st'.tours bk.tour_id = some
            { t with current_capacity :=
                t.current_capacity - bk.number_of_people }) := by
  refine ⟨fun hs => cancel_booking_completed hfind huser hs,
          fun h1 h2 h3 => cancel_booking_bad_status hfind huser h1 h2 h3,
          ?_⟩
  intro hs
  have hsu := cancel_booking_success hfind huser hs
  refine ⟨hsu, ?_⟩
  intro st' h'
  rw [hsu] at h'
  injection h' with h''
  subst h''
  exact ⟨findOne_updateOne_self _ hfind,
         fun t ht => findOne_updateOne_self _ ht⟩

/-- Witness for C3: cancelling the completed booking of `exCompletedSt`
gives the dedicated error, cancelling the cancelled booking of
`exCancelledSt` gives the generic error, and cancelling the upcoming
booking of `exBookedSt` yields exactly `exCancelledSt`. -/
theorem claim_C3_witness :
    cancel_booking exCompletedSt 7 2 = .error
      ⟨400, "This ride has already been completed and cannot be cancelled."⟩ ∧
    cancel_booking exCancelledSt 7 2 = .error
      ⟨400, "Cannot cancel a booking with status \x27cancelled\x27."⟩ ∧
    cancel_booking exBookedSt 7 2 = .ok exCancelledSt := by
  refine ⟨?_, ?_, ?_⟩
  · exact (claim_C3 exCompletedSt 7 2 ⟨0, 7, 2, 50, "cash", "completed"⟩
      (by decide) (by decide)).1 (by decide)
  · have h := (claim_C3 exCancelledSt 7 2 ⟨0, 7, 2, 50, "cash", "cancelled"⟩
      (by decide) (by decide)).2.1 (by decide) (by decide) (by decide)
    rw [h]
    decide
  · have h := ((claim_C3 exBookedSt 7 2 ⟨0, 7, 2, 50, "cash", "upcoming"⟩
      (by decide) (by decide)).2.2 (by decide)).1
    rw [h]
    decide

/-- C5: complete_booking is forbidden (403) when the booking's tour is
absent or not owned by the calling driver, is an invalid transition (400)
from a status outside "paid"/"upcoming", and on success rewrites only the
booking's status to "completed", leaving the tours collection — in
particular current_capacity — untouched. -/
theorem claim_C5 (st : St) (d bid : Nat) (bk : Booking)
    (hfind : findOne st.bookings bid = some bk) :
    (findOne st.tours bk.tour_id = none →
      complete_booking st d bid = .error
        ⟨403, "Access forbidden: You are not the driver for this tour."⟩) ∧
    (∀ t, findOne st.tours bk.tour_id = some t →
      (t.driver_id ≠ d →
        complete_booking st d bid = .error
          ⟨403, "Access forbidden: You are not the driver for this tour."⟩) ∧
      (t.driver_id = d →
        (bk.status ≠ "paid" → bk.status ≠ "upcoming" →
          complete_booking st d bid = .error
            ⟨400, "Cannot complete a booking with status \x27" ++
              bk.status ++ "\x27."⟩) ∧
        (bk.status = "paid" ∨ bk.status = "upcoming" →
          complete_booking st d bid = .ok
            { st with
                bookings := updateOne st.bookings bid
                  (fun b => { b with status := "completed" }) } ∧
          ∀ st', complete_booking st d bid = .ok st' →
            st'.tours = st.tours ∧
            findOne st'.bookings bid =
              some { bk with status := "completed" }))) := by
  refine ⟨fun ht => complete_booking_no_tour hfind ht, ?_⟩
  intro t ht
  refine ⟨fun hd => complete_booking_forbidden hfind ht hd, ?_⟩
  intro hd
  refine ⟨fun h2 h3 => complete_booking_bad_status hfind ht hd h2 h3, ?_⟩
  intro hs
  have hsu := complete_booking_success hfind ht hd hs
  refine ⟨hsu, ?_⟩
  intro st' h'
  rw [hsu] at h'
  injection h' with h''
  subst h''
  exact ⟨rfl, findOne_updateOne_self _ hfind⟩

/-- Witness for C5: driver 2 is rejected with 403, a completed booking is
rejected with 400, and driver 1 completing the upcoming booking of
`exBookedSt` yields exactly `exCompletedSt` (tour capacity still 2). -/
theorem claim_C5_witness :
    complete_booking exBookedSt 2 2 = .error
      ⟨403, "Access forbidden: You are not the driver for this tour."⟩ ∧
    complete_booking exCompletedSt 1 2 = .error
      ⟨400, "Cannot complete a booking with status \x27completed\x27."⟩ ∧
    complete_booking exBookedSt 1 2 = .ok exCompletedSt := by
  refine ⟨?_, ?_, ?_⟩
  · exact ((claim_C5 exBookedSt 2 2 ⟨0, 7, 2, 50, "cash", "upcoming"⟩
      (by decide)).2 ⟨1, "A", "B", 100, 4, 2, 25, "active", 5⟩ (by decide)).1
      (by decide)
  · have hc5 := (claim_C5 exCompletedSt 1 2 ⟨0, 7, 2, 50, "cash", "completed"⟩
      (by decide)).2 ⟨1, "A", "B", 100, 4, 2, 25, "active", 5⟩ (by decide)
    have h := (hc5.2 (by decide)).1 (by decide) (by decide)
    rw [h]
    decide
  · have hc5 := (claim_C5 exBookedSt 1 2 ⟨0, 7, 2, 50, "cash", "upcoming"⟩
      (by decide)).2 ⟨1, "A", "B", 100, 4, 2, 25, "active", 5⟩ (by decide)
    have h := ((hc5.2 (by decide)).2 (by decide)).1
    rw [h]
    decide

/-- C4: accept_pickup_request succeeds exactly when the request is
currently "pending": then it atomically sets status "accepted" and
assigns the caller; otherwise (absent or already handled) it fails with
the 404 conflict error and changes nothing; of two sequential callers
racing on the same pending request, the first succeeds and the second
receives the error. -/
theorem claim_C4 (st : St) (rid d1 d2 : Nat) :
    (∀ pr, findOne st.pickups rid = some pr → pr.status = "pending" →
      accept_pickup_request st d1 rid = .ok
        ({ st with
            pickups := updateOne st.pickups rid
              (fun p => { p with status := "accepted",
                                 driver_id := some d1 }) },
         { pr with status := "accepted", driver_id := some d1 })) ∧
    ((∀ p ∈ st.pickups, p.1 = rid → p.2.status ≠ "pending") →
      accept_pickup_request st d1 rid =
        .error ⟨404, "Request not found or already handled."⟩) ∧
    ((st.pickups.map Prod.fst).Nodup →
      ∀ pr, findOne st.pickups rid = some pr → pr.status = "pending" →
        ∃ st1, accept_pickup_request st d1 rid = .ok
            (st1, { pr with status := "accepted", driver_id := some d1 }) ∧
          accept_pickup_request st1 d2 rid =
            .error ⟨404, "Request not found or already handled."⟩) := by
  refine ⟨fun pr hf hp => accept_pickup_success hf hp,
          fun h => accept_pickup_failure h, ?_⟩
  intro hnd pr hf hp
  refine ⟨_, accept_pickup_success hf hp, ?_⟩
  apply accept_pickup_failure
  intro p hpm hk
  have hv := updateOne_key_val
    (fun p => { p with status := "accepted", driver_id := some d1 })
    hnd hf p hpm hk
  rw [hv]
  simp

/-- Witness for C4: driver 1 accepts pending request 9 of `exPendingSt`;
driver 2's subsequent accept of the same request fails with the conflict
error. -/
theorem claim_C4_witness :
    ∃ st1, accept_pickup_request exPendingSt 1 9 = .ok
        (st1, ⟨3, "accepted", some 1⟩) ∧
      accept_pickup_request st1 2 9 =
        .error ⟨404, "Request not found or already handled."⟩ := by
  have h := (claim_C4 exPendingSt 9 1 2).2.2 (by decide)
    ⟨3, "pending", none⟩ (by decide) (by decide)
  simpa using h

/-- C8: driver-side cancel_pickup_request succeeds from "pending" (for any
driver, an idempotent re-open: running it a second time returns the very
same state) and from "accepted" for the assigned driver, resetting the
status to "pending" and clearing driver_id; a non-assigned driver on an
"accepted" request gets the 404 authorization error and no change. -/
theorem claim_C8 (st : St) (rid d d2 : Nat) :
    (∀ pr, findOne st.pickups rid = some pr → pr.status = "pending" →
      ∃ st1, cancel_pickup_request st d rid = .ok
          (st1, { pr with status := "pending", driver_id := none }) ∧
        cancel_pickup_request st1 d rid = .ok
          (st1, { pr with status := "pending", driver_id := none })) ∧
    (∀ pr, findOne st.pickups rid = some pr → pr.status = "accepted" →
      pr.driver_id = some d →
      cancel_pickup_request st d rid = .ok
        ({ st with
            pickups := updateOne st.pickups rid
              (fun p => { p with status := "pending", driver_id := none }) },
         { pr with status := "pending", driver_id := none })) ∧
    ((st.pickups.map Prod.fst).Nodup →
      ∀ pr, findOne st.pickups rid = some pr → pr.status ≠ "pending" →
        (pr.status = "accepted" → pr.driver_id ≠ some d2) →
        cancel_pickup_request st d2 rid = .error
          ⟨404, "Request not found or you are not authorized to cancel it."⟩) := by
  refine ⟨?_, ?_, ?_⟩
  · intro pr hf hp
    refine ⟨{ st with
        pickups := updateOne st.pickups rid
          (fun p => { p with status := "pending", driver_id := none }) },
      cancel_pickup_success hf (Or.inl hp), ?_⟩
    have hf1 : findOne
        ({ st with
            pickups := updateOne st.pickups rid
              (fun p => { p with status := "pending", driver_id := none }) } :
          St).pickups rid =
        some { pr with status := "pending", driver_id := none } :=
      findOne_updateOne_self _ hf
    have hsu2 := cancel_pickup_success (d := d) hf1 (Or.inl rfl)
    rw [hsu2]
    rw [updateOne_self_eq _ hf1 rfl]
  · intro pr hf h1 h2
    exact cancel_pickup_success hf (Or.inr ⟨h1, h2⟩)
  · intro hnd pr hf h1 h2
    apply cancel_pickup_failure
    intro p hpm hk
    have hv := findOne_key_val hnd hf p hpm hk
    rw [hv]
    exact ⟨h1, h2⟩

/-- Witness for C8: the assigned driver 1 re-opens accepted request 9 of
`exAcceptedSt` (yielding `exPendingSt`); from `exPendingSt` any driver's
cancel is an idempotent re-open; a non-assigned driver 2 cancelling the
accepted request fails with the authorization error. -/
theorem claim_C8_witness :
    cancel_pickup_request exAcceptedSt 1 9 = .ok
      (exPendingSt, ⟨3, "pending", none⟩) ∧
    (∃ st1, cancel_pickup_request exPendingSt 5 9 = .ok
        (st1, ⟨3, "pending", none⟩) ∧
      cancel_pickup_request st1 5 9 = .ok (st1, ⟨3, "pending", none⟩)) ∧
    cancel_pickup_request exAcceptedSt 2 9 = .error
      ⟨404, "Request not found or you are not authorized to cancel it."⟩ := by
  refine ⟨?_, ?_, ?_⟩
  · have h := (claim_C8 exAcceptedSt 9 1 2).2.1 ⟨3, "accepted", some 1⟩
      (by decide) (by decide) (by decide)
    rw [h]
    decide
  · have h := (claim_C8 exPendingSt 9 5 2).1 ⟨3, "pending", none⟩
      (by decide) (by decide)
    simpa using h
  · exact (claim_C8 exAcceptedSt 9 1 2).2.2 (by decide) ⟨3, "accepted", some 1⟩
      (by decide) (by decide) (fun _ => by decide)

/-- C6: when a Rating already references the submitted booking_id,
rate_driver fails — so at most one Rating ever exists per booking — and,
the result being an error raised before any write, it inserts no Rating
and leaves the driver's stored rating and total_trips unchanged;
when all earlier preconditions hold the error is specifically the
duplicate-rating 400 conflict. -/
theorem claim_C6 (st : St) (u d : Nat) (rd : RatingCreate)
    (hdup : ∃ rt ∈ st.ratings, rt.booking_id = rd.booking_id) :
    (∃ e, rate_driver st u d rd = .error e) ∧
    (∀ bk, findOne st.bookings rd.booking_id = some bk → bk.user_id = u →
      ∀ t, findOne st.tours bk.tour_id = some t → t.driver_id = d →
        bk.status = "completed" →
        rate_driver st u d rd =
          .error ⟨400, "This booking has already been rated."⟩) := by
  have hfil : st.ratings.filter (fun r => r.booking_id == rd.booking_id) ≠ [] := by
    obtain ⟨rt, hm, he⟩ := hdup
    intro hc
    have hmem : rt ∈ st.ratings.filter
        (fun r => r.booking_id == rd.booking_id) :=
      List.mem_filter.mpr ⟨hm, by simp [he]⟩
    rw [hc] at hmem
    exact absurd hmem (List.not_mem_nil rt)
  constructor
  · cases hfb : findOne st.bookings rd.booking_id with
    | none => exact ⟨⟨404, "Booking not found."⟩, by simp [rate_driver, hfb]⟩
    | some bk =>
      by_cases hu : bk.user_id = u
      · cases ht : findOne st.tours bk.tour_id with
        | none =>
          exact ⟨⟨400, "Driver does not match the booking."⟩,
            by simp [rate_driver, hfb, hu, ht]⟩
        | some t =>
          by_cases hd : t.driver_id = d
          · by_cases hs : bk.status = "completed"
            · exact ⟨⟨400, "This booking has already been rated."⟩,
                rate_driver_dup hfb hu ht hd hs hfil⟩
            · exact ⟨⟨400, "You can only rate completed rides."⟩,
                by simp [rate_driver, hfb, hu, ht, hd, hs]⟩
          · exact ⟨⟨400, "Driver does not match the booking."⟩,
              by simp [rate_driver, hfb, hu, ht, hd]⟩
      · exact ⟨⟨403, "You can only rate your own bookings."⟩,
          by simp [rate_driver, hfb, hu]⟩
  · intro bk hfb hu t ht hd hs
    exact rate_driver_dup hfb hu ht hd hs hfil

/-- Witness for C6: rating already-rated booking 2 of `exRatedSt` again
fails with the duplicate-rating conflict. -/
theorem claim_C6_witness :
    (∃ e, rate_driver exRatedSt 7 1 ⟨2, 5⟩ = .error e) ∧
    rate_driver exRatedSt 7 1 ⟨2, 5⟩ =
      .error ⟨400, "This booking has already been rated."⟩ := by
  have h := claim_C6 exRatedSt 7 1 ⟨2, 5⟩ ⟨⟨1, 7, 2, 4⟩, by decide, by decide⟩
  exact ⟨h.1, h.2 ⟨0, 7, 2, 50, "cash", "completed"⟩ (by decide) (by decide)
    ⟨1, "A", "B", 100, 4, 2, 25, "active", 5⟩ (by decide) (by decide)
    (by decide)⟩

/-- C7: after every successful rating submission the driver's stored
rating equals `round(mean * 2) / 2` over all of the driver's ratings
(full re-aggregation, Python round-half-even) and total_trips equals the
rating count; in particular ratings [3,4,5] aggregate to 4.0 and [3,4] to
3.5 (= 7/2). -/
theorem claim_C7 (st : St) (u d : Nat) (rd : RatingCreate) (st' : St)
    (drv : Driver) (hdrv : findOne st.drivers d = some drv)
    (hok : rate_driver st u d rd = .ok st') :
    findOne st'.drivers d = some
      { drv with
          rating := halfStarAverage (driverRatings st'.ratings d),
          total_trips := ((driverRatings st'.ratings d).length : Int) } ∧
    halfStarAverage [⟨1, 7, 1, 3⟩, ⟨1, 7, 2, 4⟩, ⟨1, 7, 3, 5⟩] = 4 ∧
    halfStarAverage [⟨1, 7, 1, 3⟩, ⟨1, 7, 2, 4⟩] = Rat.divInt 7 2 := by
  refine ⟨?_, by decide, by decide⟩
  cases hfb : findOne st.bookings rd.booking_id with
  | none => simp [rate_driver, hfb] at hok
  | some bk =>
    by_cases hu : bk.user_id = u
    · cases ht : findOne st.tours bk.tour_id with
      | none => simp [rate_driver, hfb, hu, ht] at hok
      | some t =>
        by_cases hd : t.driver_id = d
        · by_cases hs : bk.status = "completed"
          · by_cases hfil :
              st.ratings.filter (fun r => r.booking_id == rd.booking_id) = []
            · have hsu := rate_driver_success hfb hu ht hd hs hfil
              rw [hsu] at hok
              injection hok with hok'
              subst hok'
              have hmem : (⟨d, u, rd.booking_id, rd.rating⟩ : Rating) ∈
                  driverRatings
                    (st.ratings ++ [⟨d, u, rd.booking_id, rd.rating⟩]) d :=
                List.mem_filter.mpr ⟨List.mem_append_right _ (by simp), by simp⟩
              cases hrs : driverRatings
                  (st.ratings ++ [⟨d, u, rd.booking_id, rd.rating⟩]) d with
              | nil =>
                rw [hrs] at hmem
                exact absurd hmem (List.not_mem_nil _)
              | cons a l =>
                simp only [update_driver_average_rating, hrs,
                  List.isEmpty_cons, if_false, Bool.false_eq_true]
                exact findOne_updateOne_self _ hdrv
            · rw [rate_driver_dup hfb hu ht hd hs hfil] at hok
              exact absurd hok (by simp)
          · simp [rate_driver, hfb, hu, ht, hd, hs] at hok
        · simp [rate_driver, hfb, hu, ht, hd] at hok
    · simp [rate_driver, hfb, hu] at hok

/-- Witness for C7: rating the completed booking of `exCompletedSt` with
score 4 succeeds, producing `exRatedSt`, whose driver aggregate matches
the re-aggregation formula. -/
theorem claim_C7_witness :
    rate_driver exCompletedSt 7 1 ⟨2, 4⟩ = .ok exRatedSt ∧
    findOne exRatedSt.drivers 1 = some
      { email := "a", full_name := "A",
        rating := halfStarAverage (driverRatings exRatedSt.ratings 1),
        total_trips := ((driverRatings exRatedSt.ratings 1).length : Int),
        tour_count := none } ∧
    halfStarAverage [⟨1, 7, 1, 3⟩, ⟨1, 7, 2, 4⟩, ⟨1, 7, 3, 5⟩] = 4 ∧
    halfStarAverage [⟨1, 7, 1, 3⟩, ⟨1, 7, 2, 4⟩] = Rat.divInt 7 2 := by
  have hok : rate_driver exCompletedSt 7 1 ⟨2, 4⟩ = .ok exRatedSt := by decide
  have h := claim_C7 exCompletedSt 7 1 ⟨2, 4⟩ exRatedSt ⟨"a", "A", 0, 0, none⟩
    (by decide) hok
  exact ⟨hok, by simpa using h.1, h.2.1, h.2.2⟩

/-- C9: on the store `exListingSt`, built purely by the repository's own
operations (`register_driver`-shaped drivers and `create_tour`), driver 1
has published 2 tours and driver 2 has published 1, yet `get_tours`
returns the tours in pure created_at-descending order [11, 12, 10] —
tour 11 of the 2-tour driver first — whereas the spec's ranking (owning
driver's published tour count ascending, then created_at descending)
requires [12, 11, 10].  The cause: the `$sort` key
`driver_details.tour_count` is a field no code in the repository ever
writes, so every tour carries the same missing key. -/
theorem claim_C9 :
    (get_tours exListingSt noFilters none).map Prod.fst = [11, 12, 10] ∧
    (insertionSort (specRankingLE exListingSt) exListingSt.tours).map
      Prod.fst = [12, 11, 10] ∧
    publishedTourCount exListingSt 1 = 2 ∧
    publishedTourCount exListingSt 2 = 1 ∧
    (get_tours exListingSt noFilters none).map Prod.fst ≠
      (insertionSort (specRankingLE exListingSt) exListingSt.tours).map
        Prod.fst := by
  exact ⟨by decide, by decide, by decide, by decide, by decide⟩

end Transporter
